import Mathlib

/-!
Verification of the expression evaluator in `calculator/calculator.py`.

The Python module evaluates an arithmetic expression given as a string by
repeatedly locating the highest-precedence operator occurrence with a regular
expression, computing its value, substituting the rendered result back into
the expression text (`str.replace`), and recursing until the remaining text
parses as a float.

Embedding notes:
* Strings are modelled as `List Char` (`String.data`).
* Python `float` (IEEE binary64) is modelled by `PyFloat`: an exact rational
  together with the special values `inf`, `-inf` and `nan`.  Rational
  arithmetic is exact, which coincides with binary64 arithmetic on every
  computation appearing in the theorems below (all values involved are small
  integers or small dyadic rationals, on which binary64 is exact).  Binary64
  rounding of inexact results, signed zeros, overflow to infinity and the
  scientific-notation thresholds of `repr(float)` are not modelled; no stated
  theorem depends on them.
* Python exceptions are modelled by the inductive `PyErr`, one constructor per
  distinct raise site reachable from `evaluate`.  The spec's "ParseError"
  corresponds to `floatParseError` (the `ValueError` raised by `float(...)`
  on a malformed string) and its "ArithmeticError" bucket to the
  division/fmod/factorial error constructors.
* The recursion of `evaluate` is made total with an explicit fuel parameter;
  `none` means the fuel was exhausted.  Every recursion in the file is
  structural, so all definitions evaluate inside the kernel (`decide`/`rfl`).
-/

set_option maxRecDepth 4096

/-- Errors raised by the Python code while evaluating an expression.
`floatParseError` is the `ValueError` from `float(...)` on a malformed
string; `zeroDivisionError` is raised by `operator.truediv`; `fmodDomain` is
the `ValueError` ("math domain error") from `math.fmod`; the two factorial
errors are the `ValueError`s raised by `math.factorial` (Python 3.8
semantics, where integral floats are accepted); `powDomain` is the
`ValueError` from `math.pow` (e.g. `0.0 ** -1`). -/
inductive PyErr where
  | floatParseError
  | zeroDivisionError
  | fmodDomain
  | factorialNonIntegral
  | factorialNegative
  | powDomain
  deriving DecidableEq, Repr

/-- Model of a Python `float` value: an exact rational, or one of the IEEE
special values. -/
inductive PyFloat where
  | fin (q : Rat)
  | inf
  | ninf
  | nan
  deriving DecidableEq, Repr

/-- Result of an operator's compute function: `math.factorial` returns a
Python `int`, every other operation returns a `float`.  The distinction
matters because `str(120)` is `"120"` while `str(120.0)` is `"120.0"`. -/
inductive PyNum where
  | i (n : Int)
  | f (v : PyFloat)
  deriving DecidableEq, Repr

/-- Outcome of an evaluation: a value or a raised exception. -/
inductive EvalOut where
  | val (v : PyFloat)
  | err (e : PyErr)
  deriving DecidableEq, Repr

/-! ### Character helpers -/

/-- The whitespace characters stripped by Python's `float(str)` parser. -/
def isPySpace (c : Char) : Bool :=
  c = ' ' || c = '\t' || c = '\n' || c = '\r' || c = '\x0b' || c = '\x0c'

/-- Decimal digit test (`\d` in the regexes; ASCII digits). -/
def isDig (c : Char) : Bool := '0' ≤ c && c ≤ '9'

/-- Numeric value of a digit character. -/
def digVal (c : Char) : Nat := c.toNat - '0'.toNat

/-- `leadsWith pat s` : `pat` occurs at the start of `s`. -/
def leadsWith : List Char → List Char → Bool
  | [], _ => true
  | _ :: _, [] => false
  | a :: as, b :: bs => a = b && leadsWith as bs

/-- Python `str.replace(old, new)`: replace every non-overlapping occurrence
of `old` (scanned left to right) by `new`.  The needle is passed as
`o :: os`, so it is never empty (as in the source, where the matched span
always contains at least the operator character).  The `fuel` argument makes
the recursion structural; it is called with `fuel = s.length`, which always
suffices because each step consumes at least one character of `s`. -/
def replaceAllAux (o : Char) (os new : List Char) : Nat → List Char → List Char
  | _, [] => []
  | 0, s => s
  | fuel + 1, c :: rest =>
    if leadsWith (o :: os) (c :: rest) then
      new ++ replaceAllAux o os new fuel (rest.drop os.length)
    else
      c :: replaceAllAux o os new fuel rest

/-- Python `str.replace` with a non-empty needle `o :: os`. -/
def replaceAll (s : List Char) (o : Char) (os new : List Char) : List Char :=
  replaceAllAux o os new s.length s

/-- `expression.replace(" ", "")`: drop every space character. -/
def stripSpaces (s : List Char) : List Char := s.filter (fun c => c ≠ ' ')

/-! ### The `ANY_NUMBER` regex

`ANY_NUMBER = r"-?\d+(?:\.\d+)?"`.  At a fixed start position the pattern has
at most one viable parse when followed by an operator character: the greedy
one (optional minus sign, maximal digit run, then a fraction part exactly
when a dot followed by a digit is present).  Shrinking `\d+` or dropping the
fraction would place a digit or a dot where the single-character operator
literal must match, and dropping the sign would place the minus sign where
`\d+` must match, so backtracking never produces a different match; the
search therefore just advances one start position on failure, exactly like
`re.search`. -/

/-- Maximal digit run at the head: value ignored, returns matched digits and
the rest; fails when the head is not a digit. -/
def takeDigits (s : List Char) : Option (List Char × List Char) :=
  let ds := s.takeWhile isDig
  match ds with
  | [] => none
  | _ => some (ds, s.drop ds.length)

/-- Greedy match of `ANY_NUMBER` at the head of `s`; returns the matched
characters and the remaining characters. -/
def matchNum (s : List Char) : Option (List Char × List Char) :=
  let core : List Char → Option (List Char × List Char) := fun t =>
    match takeDigits t with
    | none => none
    | some (ds, rest) =>
      match rest with
      | '.' :: r2 =>
        match takeDigits r2 with
        | some (fs, r3) => some (ds ++ '.' :: fs, r3)
        | none => some (ds, rest)
      | _ => some (ds, rest)
  match s with
  | '-' :: t =>
    match core t with
    | some (m, rest) => some ('-' :: m, rest)
    | none => none
  | _ => core s

/-! ### Match data and per-operator searches -/

/-- A successful `re.search` for one operator: the full matched span
(`search_result.group()`) together with the captured groups. -/
inductive MatchData where
  | binM (old g1 g2 : List Char)
  | unM (old g : List Char)
  | parenM (old inner : List Char)
  deriving DecidableEq, Repr

/-- `re.search(fr"({ANY_NUMBER}){sym}({ANY_NUMBER})", s)` for a binary
operator symbol `sym` (the symbol is regex-escaped in the source, so it is a
single literal character). -/
def searchBin (sym : Char) : List Char → Option MatchData
  | [] => none
  | c :: rest =>
    let here : Option MatchData :=
      match matchNum (c :: rest) with
      | none => none
      | some (g1, r1) =>
        match r1 with
        | s :: r2 =>
          if s = sym then
            match matchNum r2 with
            | some (g2, _) => some (.binM (g1 ++ sym :: g2) g1 g2)
            | none => none
          else none
        | [] => none
    match here with
    | some m => some m
    | none => searchBin sym rest

/-- `re.search(fr"~({ANY_NUMBER})", s)`: the unary negation pattern. -/
def searchTilde : List Char → Option MatchData
  | [] => none
  | c :: rest =>
    if c = '~' then
      match matchNum rest with
      | some (g, _) => some (.unM ('~' :: g) g)
      | none => searchTilde rest
    else searchTilde rest

/-- `re.search(fr"({ANY_NUMBER})!", s)`: the factorial pattern. -/
def searchBang : List Char → Option MatchData
  | [] => none
  | c :: rest =>
    let here : Option MatchData :=
      match matchNum (c :: rest) with
      | none => none
      | some (g, r1) =>
        match r1 with
        | '!' :: _ => some (.unM (g ++ ['!']) g)
        | _ => none
    match here with
    | some m => some m
    | none => searchBang rest

/-- `re.search(r"\(([^()]*)\)", s)`: the leftmost innermost parenthesized
group.  At an opening parenthesis the greedy `[^()]*` runs to the first
parenthesis character; the match succeeds exactly when that character is a
closing parenthesis (shrinking `[^()]*` cannot help, since the closing
parenthesis would then have to equal a character known not to be one). -/
def searchParen : List Char → Option MatchData
  | [] => none
  | c :: rest =>
    if c = '(' then
      let inner := rest.takeWhile (fun d => d ≠ '(' && d ≠ ')')
      match rest.drop inner.length with
      | ')' :: _ => some (.parenM ('(' :: inner ++ [')']) inner)
      | _ => searchParen rest
    else searchParen rest

/-! ### The operator table -/

/-- Tags for the twelve entries of the `OPERATORS` dictionary. -/
inductive OpKind where
  | add | sub | mul | div | pow | mod | avg | max | min | neg | fact | paren
  deriving DecidableEq, Repr

/-- One entry of the `OPERATORS` dictionary: the dictionary key (`symbol`),
the `precedence` field, and a tag standing for the `operation`/`regex`
fields (both are recovered from the tag: `opSearch` below is the regex,
and the compute functions are dispatched on the tag in `reduceOnce`). -/
structure OperatorSpec where
  symbol : Char
  kind : OpKind
  precedence : Nat
  deriving DecidableEq, Repr

/-- `sys.maxsize` on a 64-bit CPython build. -/
def maxsize : Nat := 9223372036854775807

/-- The `OPERATORS` dictionary, in insertion order (Python dictionaries
preserve insertion order, which is what `sorted` sees). -/
def OPERATORS : List OperatorSpec :=
  [ ⟨'+', .add, 1⟩, ⟨'-', .sub, 1⟩,
    ⟨'*', .mul, 2⟩, ⟨'/', .div, 2⟩,
    ⟨'^', .pow, 3⟩, ⟨'%', .mod, 4⟩,
    ⟨'@', .avg, 5⟩, ⟨'$', .max, 5⟩, ⟨'&', .min, 5⟩,
    ⟨'~', .neg, 6⟩, ⟨'!', .fact, 7⟩,
    ⟨'(', .paren, maxsize⟩ ]

/-- Stable insertion into a descending-precedence list: the element goes
after every earlier element of greater *or equal* precedence, which is the
tie-breaking behaviour of Python's stable `sorted(..., reverse=True)`. -/
def insertDesc (x : OperatorSpec) : List OperatorSpec → List OperatorSpec
  | [] => [x]
  | y :: ys => if y.precedence < x.precedence then x :: y :: ys else y :: insertDesc x ys

/-- Stable sort by descending precedence, inserting elements in list order
(so an element appearing earlier in the table ends up before later elements
of equal precedence): models `sorted(OPERATORS.values(),
key=attrgetter("precedence"), reverse=True)`, which is stable and keeps
ties in insertion order. -/
def sortDesc (l : List OperatorSpec) : List OperatorSpec :=
  l.foldl (fun acc x => insertDesc x acc) []

/-- `operators_by_precedence` as computed in `evaluate`. -/
def operatorsByPrecedence : List OperatorSpec := sortDesc OPERATORS

/-- The regex search belonging to one operator entry. -/
def opSearch (op : OperatorSpec) : List Char → Option MatchData :=
  match op.kind with
  | .neg => searchTilde
  | .fact => searchBang
  | .paren => searchParen
  | _ => searchBin op.symbol

/-- The `for operator_info in operators_by_precedence` loop head: the first
operator (in table order) whose regex matches, with its match. -/
def findOp : List OperatorSpec → List Char → Option (OpKind × MatchData)
  | [], _ => none
  | op :: rest, e =>
    match opSearch op e with
    | some m => some (op.kind, m)
    | none => findOp rest e

/-! ### Arithmetic on `PyFloat`

Each function models the Python callable stored in the `operation` field of
the corresponding `OPERATORS` entry, including its raise behaviour.  Finite
arithmetic is exact rational arithmetic (see the header note on binary64
rounding). -/

/-! ### Reducible rational arithmetic

The Batteries definitions of `Rat.add`, `Rat.sub`, `Rat.mul` and `Rat.inv`
(and hence `/`, `⁻¹` and the monoid power) are `@[irreducible]`, which keeps
kernel-evaluated proofs (`decide`) from unfolding them.  The evaluator below
therefore computes with the following equivalent definitions built from the
reducible smart constructors `mkRat` and `Rat.divInt`; the `rat*_eq` lemmas
below prove them equal to the standard field operations, so the universally
quantified theorems can still reason in `ℚ`. -/

/-- `a + b` on `ℚ`, computed reducibly. -/
def ratAdd (a b : Rat) : Rat := mkRat (a.num * b.den + b.num * a.den) (a.den * b.den)

/-- `a - b` on `ℚ`, computed reducibly. -/
def ratSub (a b : Rat) : Rat := mkRat (a.num * b.den - b.num * a.den) (a.den * b.den)

/-- `a * b` on `ℚ`, computed reducibly. -/
def ratMul (a b : Rat) : Rat := mkRat (a.num * b.num) (a.den * b.den)

/-- `a / b` on `ℚ`, computed reducibly (`0` when `b = 0`, as in Lean). -/
def ratDiv (a b : Rat) : Rat := Rat.divInt (a.num * b.den) (b.num * a.den)

/-- `a⁻¹` on `ℚ`, computed reducibly (`0⁻¹ = 0`). -/
def ratInv (a : Rat) : Rat := Rat.divInt a.den a.num

/-- `x ^ n` on `ℚ`, computed componentwise and reducibly. -/
def ratPowNat (x : Rat) (n : Nat) : Rat := mkRat (x.num ^ n) (x.den ^ n)

theorem ratAdd_eq (a b : Rat) : ratAdd a b = a + b := by
  unfold ratAdd
  rw [Rat.mkRat_eq_divInt, Rat.divInt_eq_div]
  have ha : ((a.den : Rat)) ≠ 0 := Nat.cast_ne_zero.mpr a.den_ne_zero
  have hb : ((b.den : Rat)) ≠ 0 := Nat.cast_ne_zero.mpr b.den_ne_zero
  conv_rhs => rw [← Rat.num_div_den a, ← Rat.num_div_den b]
  rw [div_add_div _ _ ha hb]
  push_cast
  ring_nf

theorem ratSub_eq (a b : Rat) : ratSub a b = a - b := by
  unfold ratSub
  rw [Rat.mkRat_eq_divInt, Rat.divInt_eq_div]
  have ha : ((a.den : Rat)) ≠ 0 := Nat.cast_ne_zero.mpr a.den_ne_zero
  have hb : ((b.den : Rat)) ≠ 0 := Nat.cast_ne_zero.mpr b.den_ne_zero
  conv_rhs => rw [← Rat.num_div_den a, ← Rat.num_div_den b]
  rw [div_sub_div _ _ ha hb]
  push_cast
  ring_nf

theorem ratMul_eq (a b : Rat) : ratMul a b = a * b := by
  unfold ratMul
  rw [Rat.mkRat_eq_divInt, Rat.divInt_eq_div]
  conv_rhs => rw [← Rat.num_div_den a, ← Rat.num_div_den b]
  rw [div_mul_div_comm]
  push_cast
  ring_nf

theorem ratDiv_eq (a b : Rat) : ratDiv a b = a / b := by
  unfold ratDiv
  rw [Rat.div_def' a b, Int.mul_comm a.den b.num]

theorem ratInv_eq (a : Rat) : ratInv a = a⁻¹ := by
  unfold ratInv
  rw [Rat.divInt_eq_div, inv_eq_one_div]
  conv_rhs => rw [← Rat.num_div_den a]
  rw [one_div_div]
  norm_cast

theorem ratPowNat_eq (x : Rat) (n : Nat) : ratPowNat x n = x ^ n := by
  unfold ratPowNat
  rw [Rat.mkRat_eq_divInt, Rat.divInt_eq_div]
  push_cast
  rw [← div_pow, Rat.num_div_den]

/-- IEEE-style strict "less than" used by Python float comparisons: any
comparison involving `nan` is false. -/
def pyLt : PyFloat → PyFloat → Bool
  | .fin a, .fin b => a < b
  | .fin _, .inf => true
  | .ninf, .fin _ => true
  | .ninf, .inf => true
  | _, _ => false

/-- `operator.add` on floats. -/
def pyAdd : PyFloat → PyFloat → PyFloat
  | .fin a, .fin b => .fin (ratAdd a b)
  | .nan, _ => .nan
  | _, .nan => .nan
  | .inf, .ninf => .nan
  | .ninf, .inf => .nan
  | .inf, _ => .inf
  | _, .inf => .inf
  | .ninf, _ => .ninf
  | _, .ninf => .ninf

/-- `operator.neg` on floats. -/
def pyNeg : PyFloat → PyFloat
  | .fin a => .fin (-a)
  | .inf => .ninf
  | .ninf => .inf
  | .nan => .nan

/-- `operator.sub` on floats. -/
def pySub : PyFloat → PyFloat → PyFloat
  | .fin a, .fin b => .fin (ratSub a b)
  | .nan, _ => .nan
  | _, .nan => .nan
  | .inf, .inf => .nan
  | .ninf, .ninf => .nan
  | .inf, _ => .inf
  | _, .inf => .ninf
  | .ninf, _ => .ninf
  | _, .ninf => .inf

/-- Sign of a nonzero finite rational times an infinity, for `pyMul`. -/
def infWithSign (q : Rat) : PyFloat := if 0 < q then .inf else .ninf

/-- `operator.mul` on floats. -/
def pyMul : PyFloat → PyFloat → PyFloat
  | .fin a, .fin b => .fin (ratMul a b)
  | .nan, _ => .nan
  | _, .nan => .nan
  | .inf, .inf => .inf
  | .inf, .ninf => .ninf
  | .ninf, .inf => .ninf
  | .ninf, .ninf => .inf
  | .inf, .fin b => if b = 0 then .nan else infWithSign b
  | .ninf, .fin b => if b = 0 then .nan else infWithSign (-b)
  | .fin a, .inf => if a = 0 then .nan else infWithSign a
  | .fin a, .ninf => if a = 0 then .nan else infWithSign (-a)

/-- `operator.truediv` on floats: CPython raises `ZeroDivisionError` whenever
the divisor equals `0.0`, regardless of the dividend (including `inf` and
`nan` dividends). -/
def pyDiv (a b : PyFloat) : Except PyErr PyFloat :=
  if b = .fin 0 then .error .zeroDivisionError
  else
    match a, b with
    | .fin x, .fin y => .ok (.fin (ratDiv x y))
    | .nan, _ => .ok .nan
    | _, .nan => .ok .nan
    | .inf, .inf => .ok .nan
    | .inf, .ninf => .ok .nan
    | .ninf, .inf => .ok .nan
    | .ninf, .ninf => .ok .nan
    | .inf, .fin y => .ok (infWithSign y)
    | .ninf, .fin y => .ok (infWithSign (-y))
    | .fin _, .inf => .ok (.fin 0)
    | .fin _, .ninf => .ok (.fin 0)

/-- Truncation toward zero, as C `trunc`: `trunc(a/b)` in the definition of
`fmod`. -/
def truncQ (q : Rat) : Int := if 0 ≤ q then ⌊q⌋ else ⌈q⌉

/-- Exact value of C/IEEE `fmod` on finite operands (the IEEE remainder
`a - b * trunc(a/b)` is always exactly representable, so the exact rational
formula agrees with binary64 `fmod` wherever the operands are
representable). -/
def fmodQ (a b : Rat) : Rat := ratSub a (ratMul b (truncQ (ratDiv a b) : Int))

/-- `math.fmod`: raises `ValueError` ("math domain error") for a zero
divisor or an infinite dividend (with non-`nan` operands); `nan` operands
propagate; a finite dividend with infinite divisor is returned unchanged. -/
def pyFmod (a b : PyFloat) : Except PyErr PyFloat :=
  match a, b with
  | .nan, _ => .ok .nan
  | _, .nan => .ok .nan
  | _, .fin y =>
    if y = 0 then .error .fmodDomain
    else
      match a with
      | .fin x => .ok (.fin (fmodQ x y))
      | _ => .error .fmodDomain
  | .fin x, _ => .ok (.fin x)
  | _, _ => .error .fmodDomain

/-- `math.pow` restricted to the cases the rational model can express
exactly: finite base with integral finite exponent (plus the infinity/nan
propagation rules).  `math.pow(0.0, negative)` raises `ValueError`;
`math.pow(0.0, 0.0)` is `1.0`.  A non-integral exponent would require
binary64 rounding of a real power, which the rational model does not cover;
that branch returns `nan` as a documented placeholder and is not relied on
by any theorem. -/
def pyPow (a b : PyFloat) : Except PyErr PyFloat :=
  match a, b with
  | .nan, _ => .ok .nan
  | _, .nan => .ok .nan
  | .fin x, .fin y =>
    if y.den = 1 then
      if 0 ≤ y.num then .ok (.fin (ratPowNat x y.num.toNat))
      else if x = 0 then .error .powDomain
      else .ok (.fin (ratPowNat (ratInv x) (-y.num).toNat))
    else .ok .nan
  | .inf, .fin y => .ok (if y = 0 then .fin 1 else if 0 < y then .inf else .fin 0)
  | .ninf, .fin y => .ok (if y = 0 then .fin 1 else if 0 < y then .inf else .fin 0)
  | .fin x, .inf => .ok (if x = 1 ∨ x = -1 then .fin 1 else if x = 0 then .fin 0 else .inf)
  | .fin x, .ninf => .ok (if x = 1 ∨ x = -1 then .fin 1 else if x = 0 then .inf else .fin 0)
  | .inf, .inf => .ok .inf
  | .inf, .ninf => .ok (.fin 0)
  | .ninf, .inf => .ok .inf
  | .ninf, .ninf => .ok (.fin 0)

/-- `math.factorial` under Python 3.8 semantics, where a float argument is
accepted when finite and integral: non-integral (or non-finite) floats raise
`ValueError` ("factorial() only accepts integral values"), negative integral
floats raise `ValueError` ("factorial() not defined for negative values"),
and the result for a valid argument is a Python `int`. -/
def pyFactorial : PyFloat → Except PyErr PyNum
  | .fin q =>
    if q.den ≠ 1 then .error .factorialNonIntegral
    else if q.num < 0 then .error .factorialNegative
    else .ok (.i (Nat.factorial q.num.toNat))
  | _ => .error .factorialNonIntegral

/-- CPython `max(a, b)`: start from `a`, replace by `b` when `b > a` (so any
`nan` comparison keeps the current value). -/
def pyMax (a b : PyFloat) : PyFloat := if pyLt a b then b else a

/-- CPython `min(a, b)`: start from `a`, replace by `b` when `b < a`. -/
def pyMin (a b : PyFloat) : PyFloat := if pyLt b a then b else a

/-- The `'@'` lambda `(x + y) / 2.0`.  The division cannot raise (the
divisor is the constant `2.0`). -/
def pyAvg (a b : PyFloat) : Except PyErr PyFloat := pyDiv (pyAdd a b) (.fin 2)

/-! ### Rendering: `str(operation_result)` -/

/-- Decimal digits of a natural number (most significant first). -/
def natDigits (n : Nat) : List Char := Nat.toDigits 10 n

/-- `str` of a Python `int`. -/
def intStr (n : Int) : List Char :=
  if n < 0 then '-' :: natDigits n.natAbs else natDigits n.toNat

/-- Render the rational `m / 10^k` (with `k` decimal places) the way Python
renders a float with a small terminating decimal expansion: optional sign,
integer part, a dot, and the fractional digits with trailing zeros removed —
with `"0"` as the whole fractional part when nothing remains, so integral
floats render as e.g. `"5.0"`. -/
def renderDec (m : Int) (k : Nat) : List Char :=
  let ds := natDigits m.natAbs
  let ds := List.replicate (k + 1 - ds.length) '0' ++ ds
  let intPart := ds.take (ds.length - k)
  let fracPart := ds.drop (ds.length - k)
  let fracPart := (fracPart.reverse.dropWhile (fun c => c = '0')).reverse
  let fracPart := if fracPart = [] then ['0'] else fracPart
  (if m < 0 then ['-'] else []) ++ intPart ++ '.' :: fracPart

/-- Multiplicity of `p` in `n`, with structural fuel. -/
def multAux (p : Nat) : Nat → Nat → Nat
  | 0, _ => 0
  | fuel + 1, n => if n % p = 0 && n ≠ 0 then 1 + multAux p fuel (n / p) else 0

/-- Multiplicity of the prime `p` in `n`. -/
def multP (p n : Nat) : Nat := multAux p n n

/-- `str`/`repr` of a finite Python float, for the values this development
evaluates: a rational with a terminating decimal expansion is rendered
exactly (its exact expansion is its own shortest round-tripping form in the
ranges reached here).  Python switches to scientific notation below `1e-4`
and at/above `1e16`, and rounds a non-terminating value to its shortest
round-tripping 17-significant-digit form; neither case is reachable in any
theorem below, and the non-terminating branch is a crude 17-decimal-place
stand-in. -/
def floatRepr (q : Rat) : List Char :=
  if q.den = 1 then renderDec q.num 0
  else
    let a := multP 2 q.den
    let b := multP 5 q.den
    if 2 ^ a * 5 ^ b = q.den then
      let k := Nat.max a b
      renderDec (q.num * ((10 ^ k / q.den : Nat) : Int)) k
    else renderDec ⌊ratMul q ((10 ^ 17 : Nat) : Rat)⌋ 17

/-- `str(operation_result)` as used on line 80 of the source. -/
def pyNumStr : PyNum → List Char
  | .i n => intStr n
  | .f (.fin q) => floatRepr q
  | .f .inf => ['i', 'n', 'f']
  | .f .ninf => ['-', 'i', 'n', 'f']
  | .f .nan => ['n', 'a', 'n']

/-! ### `float(str)` -/

/-- A digit run with optional single underscores between digits (Python
numeric literals and `float()` accept e.g. `"1_0"`, but not leading,
trailing or doubled underscores).  Accumulates the value and the digit
count; returns the remaining characters. -/
def digitsUAux : Nat → Nat → List Char → Nat × Nat × List Char
  | v, n, '_' :: c :: rest =>
    if isDig c then digitsUAux (10 * v + digVal c) (n + 1) rest
    else (v, n, '_' :: c :: rest)
  | v, n, c :: rest =>
    if isDig c then digitsUAux (10 * v + digVal c) (n + 1) rest
    else (v, n, c :: rest)
  | v, n, [] => (v, n, [])

/-- A nonempty underscore-separated digit run: fails unless the head is a
digit. -/
def digitsU (s : List Char) : Option (Nat × Nat × List Char) :=
  match s with
  | c :: rest => if isDig c then some (digitsUAux (digVal c) 1 rest) else none
  | [] => none

/-- Exponent suffix and end-of-input check for `float()`:
`[('e'|'E') ['+'|'-'] digits]` and nothing after it. -/
def floatParseExp (mant : Rat) (rest : List Char) : Option Rat :=
  match rest with
  | [] => some mant
  | e :: r1 =>
    if e = 'e' || e = 'E' then
      let (esgn, r2) : Bool × List Char :=
        match r1 with
        | '+' :: r => (true, r)
        | '-' :: r => (false, r)
        | _ => (true, r1)
      match digitsU r2 with
      | some (ev, _, []) =>
        some (if esgn then ratMul mant ((10 ^ ev : Nat) : Rat) else ratDiv mant ((10 ^ ev : Nat) : Rat))
      | _ => none
    else none

/-- The numeric part of `float()` after the sign: `digits ['.' [digits]]`
or `'.' digits`, then an optional exponent; must consume the whole input. -/
def floatParseNumber (s : List Char) : Option Rat :=
  match digitsU s with
  | some (iv, _, r1) =>
    match r1 with
    | '.' :: r2 =>
      match digitsU r2 with
      | some (fv, fc, r3) => floatParseExp (ratAdd (iv : Rat) (ratDiv (fv : Rat) ((10 ^ fc : Nat) : Rat))) r3
      | none => floatParseExp (iv : Rat) r2
    | _ => floatParseExp (iv : Rat) r1
  | none =>
    match s with
    | '.' :: r2 =>
      match digitsU r2 with
      | some (fv, fc, r3) => floatParseExp (ratDiv (fv : Rat) ((10 ^ fc : Nat) : Rat)) r3
      | none => none
    | _ => none

/-- `float(s)` after whitespace stripping: optional sign, then either a
(case-insensitive) `inf`/`infinity`/`nan` word or a decimal number. -/
def floatParseCore (s : List Char) : Option PyFloat :=
  let (neg, s1) : Bool × List Char :=
    match s with
    | '+' :: r => (false, r)
    | '-' :: r => (true, r)
    | _ => (false, s)
  let low := s1.map Char.toLower
  if low = ['i', 'n', 'f'] || low = ['i', 'n', 'f', 'i', 'n', 'i', 't', 'y'] then
    some (if neg then .ninf else .inf)
  else if low = ['n', 'a', 'n'] then some .nan
  else
    match floatParseNumber s1 with
    | some q => some (.fin (if neg then -q else q))
    | none => none

/-- Python's `float(str)` conversion: strips surrounding whitespace, then
parses a sign and a float literal; raises `ValueError` ("could not convert
string to float") otherwise.  The exact rational value is kept (binary64
rounding of the decimal, and overflow of huge literals to `inf`, are not
modelled; no theorem below exercises them). -/
def floatParse (s : List Char) : EvalOut :=
  let t := (((s.dropWhile isPySpace).reverse.dropWhile isPySpace).reverse)
  match floatParseCore t with
  | some v => .val v
  | none => .err .floatParseError

/-! ### The reduction engine -/

/-- Convert a captured group to a float, as `float(op)` on line 75 does.  On
the digit strings produced by `ANY_NUMBER` this never fails. -/
def groupFloat (g : List Char) : Except PyErr PyFloat :=
  match floatParse g with
  | .val v => .ok v
  | .err e => .error e

/-- Dispatch of the binary compute functions of the operator table. -/
def applyBin (k : OpKind) (a b : PyFloat) : Except PyErr PyNum :=
  match k with
  | .add => .ok (.f (pyAdd a b))
  | .sub => .ok (.f (pySub a b))
  | .mul => .ok (.f (pyMul a b))
  | .div => (pyDiv a b).map .f
  | .pow => (pyPow a b).map .f
  | .mod => (pyFmod a b).map .f
  | .avg => (pyAvg a b).map .f
  | .max => .ok (.f (pyMax a b))
  | .min => .ok (.f (pyMin a b))
  | _ => .ok (.f .nan)

/-- Result of one iteration of the operator loop on a fixed expression:
either no operator regex matched anywhere, or an exception was raised, or
the expression was rewritten (lines 72-80 of the source), or — for the
recursive `'('` case only — the inner evaluation ran out of fuel. -/
inductive StepRes where
  | noMatch
  | errored (e : PyErr)
  | stepped (e : List Char)
  | fuelOut
  deriving DecidableEq, Repr

/-- One reduction pass over `e`: find the first operator (in precedence
order) with a match, compute, render, and substitute with `str.replace`.
`recEval` is the evaluator used for the `'('` operation (which is
`lambda expr: evaluate(expr)` in the source). -/
def reduceOnce (recEval : List Char → Option EvalOut) (e : List Char) : StepRes :=
  match findOp operatorsByPrecedence e with
  | none => .noMatch
  | some (k, m) =>
    let subst : List Char → PyNum → StepRes := fun old r =>
      match old with
      | o :: os => .stepped (replaceAll e o os (pyNumStr r))
      | [] => .noMatch
    match m with
    | .parenM old inner =>
      match recEval inner with
      | none => .fuelOut
      | some (.err er) => .errored er
      | some (.val v) => subst old (.f v)
    | .unM old g =>
      match groupFloat g with
      | .error er => .errored er
      | .ok v =>
        match k with
        | .fact =>
          match pyFactorial v with
          | .error er => .errored er
          | .ok r => subst old r
        | _ => subst old (.f (pyNeg v))
    | .binM old g1 g2 =>
      match groupFloat g1, groupFloat g2 with
      | .ok a, .ok b =>
        match applyBin k a b with
        | .error er => .errored er
        | .ok r => subst old r
      | .error er, _ => .errored er
      | _, .error er => .errored er

/-- The `evaluate` function of the source, with a fuel parameter bounding
the recursion depth (`none` = fuel exhausted; the Python original recurses
without a bound).  Each call strips spaces, runs one reduction pass, and
either recurses on the rewritten expression, propagates a raised exception,
or — when no operator matches — returns `float(expression)`. -/
def evaluate : Nat → List Char → Option EvalOut
  | 0, _ => none
  | n + 1, s =>
    let e := stripSpaces s
    match reduceOnce (fun t => evaluate n t) e with
    | .noMatch => some (floatParse e)
    | .errored er => some (.err er)
    | .fuelOut => none
    | .stepped e2 => evaluate n e2

/-- `evaluate` on a Lean string literal. -/
def evalStr (fuel : Nat) (s : String) : Option EvalOut := evaluate fuel s.data

/-! ### Auxiliary notions used by the claims -/

/-- The operator symbols (the keys of `OPERATORS`). -/
def opSymbols : List Char := OPERATORS.map (fun op => op.symbol)

/-- Number of operator-symbol occurrences in a string (the "operator count"
of the specification's termination argument). -/
def opCount (s : String) : Nat := s.data.countP (fun c => opSymbols.contains c)

/-- Modelled from the spec: the numeric-literal grammar of section 4.1, "an
optional leading `-` sign immediately followed by one or more digits,
optionally followed by `.` and one or more digits" — i.e. a full-string
match of `ANY_NUMBER`.  Used only to state which inputs lie outside that
grammar (claims C8 and C10); the code itself never applies this predicate. -/
def specNumericLiteral (s : String) : Bool :=
  match matchNum s.data with
  | some (_, []) => true
  | _ => false

/-! ### Helper lemmas about `fmodQ` -/

theorem truncQ_le_of_nonneg {q : Rat} (h : 0 ≤ q) :
    (truncQ q : Rat) ≤ q ∧ 0 ≤ (truncQ q : Rat) := by
  unfold truncQ
  rw [if_pos h]
  exact ⟨by exact_mod_cast Int.floor_le q, by exact_mod_cast Int.floor_nonneg.mpr h⟩

theorem le_truncQ_of_nonpos {q : Rat} (h : q ≤ 0) :
    q ≤ (truncQ q : Rat) ∧ (truncQ q : Rat) ≤ 0 := by
  unfold truncQ
  by_cases h0 : 0 ≤ q
  · rw [if_pos h0]
    have hq : q = 0 := le_antisymm h h0
    subst hq
    norm_num
  · rw [if_neg h0]
    refine ⟨by exact_mod_cast Int.le_ceil q, ?_⟩
    have : ⌈q⌉ ≤ (0 : Int) := Int.ceil_le.mpr (by exact_mod_cast h)
    exact_mod_cast this

/-- The IEEE `fmod` remainder has the sign of the dividend (or is zero). -/
theorem fmodQ_sign (a b : Rat) (hb : b ≠ 0) :
    (0 ≤ a → 0 ≤ fmodQ a b) ∧ (a ≤ 0 → fmodQ a b ≤ 0) := by
  unfold fmodQ
  rw [ratDiv_eq, ratMul_eq, ratSub_eq]
  rcases lt_or_gt_of_ne hb with hbneg | hbpos
  · constructor
    · intro ha
      have hq : a / b ≤ 0 := div_nonpos_of_nonneg_of_nonpos ha hbneg.le
      obtain ⟨h1, _⟩ := le_truncQ_of_nonpos hq
      have h2 : (truncQ (a / b) : Rat) * b ≤ a := (div_le_iff_of_neg hbneg).mp h1
      linarith [h2, mul_comm b ((truncQ (a / b) : Rat))]
    · intro ha
      have hq : 0 ≤ a / b := div_nonneg_of_nonpos ha hbneg.le
      obtain ⟨h1, _⟩ := truncQ_le_of_nonneg hq
      have h2 : a ≤ (truncQ (a / b) : Rat) * b := (le_div_iff_of_neg hbneg).mp h1
      linarith [h2, mul_comm b ((truncQ (a / b) : Rat))]
  · constructor
    · intro ha
      have hq : 0 ≤ a / b := div_nonneg ha hbpos.le
      obtain ⟨h1, _⟩ := truncQ_le_of_nonneg hq
      have h2 : (truncQ (a / b) : Rat) * b ≤ a := (le_div_iff₀ hbpos).mp h1
      linarith [h2, mul_comm b ((truncQ (a / b) : Rat))]
    · intro ha
      have hq : a / b ≤ 0 := div_nonpos_of_nonpos_of_nonneg ha hbpos.le
      obtain ⟨h1, _⟩ := le_truncQ_of_nonpos hq
      have h2 : a ≤ (truncQ (a / b) : Rat) * b := (div_le_iff₀ hbpos).mp h1
      linarith [h2, mul_comm b ((truncQ (a / b) : Rat))]

/-! ### Sanity checks of the embedding (not claim theorems) -/

/-- The scan order produced by the stable descending sort: grouping first,
then factorial, negation, the precedence-5 trio, modulo, power,
multiplication/division, addition/subtraction — with insertion order inside
each tier. -/
theorem operatorsByPrecedence_symbols :
    operatorsByPrecedence.map (fun op => op.symbol) =
      ['(', '!', '~', '@', '$', '&', '%', '^', '*', '/', '+', '-'] := by
  decide

/-- The simple-expression examples from section 8 of the spec. -/
theorem evaluate_simple_examples :
    evalStr 2 "3+4" = some (.val (.fin 7)) ∧
    evalStr 2 "10/4" = some (.val (.fin (mkRat 5 2))) ∧
    evalStr 2 "2^10" = some (.val (.fin 1024)) ∧
    evalStr 3 "~5+2" = some (.val (.fin (-3))) := by
  decide

/-! ### The claims -/

/-- C1: the claim says that a reduction step replaces only the *first*
occurrence of the matched span, leaving later identical occurrences
unchanged, so that reducing "1+1-1+1" would rewrite only the first "1+1"
(yielding "2.0-1+1").  The code instead calls `str.replace` without a count,
which replaces *every* occurrence: the first pass on "1+1-1+1" rewrites both
"1+1" spans to "2.0-2.0", and the evaluation returns 0.0 — although the
expression's value is 2 — contradicting the function's documented purpose.
This theorem evaluates the code at the failing input. -/
theorem claim_C1 :
    reduceOnce (evaluate 0) "1+1-1+1".data = .stepped "2.0-2.0".data ∧
    "2.0-2.0".data ≠ "2.0-1+1".data ∧
    evalStr 4 "1+1-1+1" = some (.val (.fin 0)) := by
  decide

/-- C2: the claim says that within a precedence tier only the leftmost match
is taken, making "5-1+2" evaluate as (5-1)+2 = 6.0.  In the code the `'+'`
matcher is scanned before `'-'` inside the tier and its `ANY_NUMBER` groups
accept a leading minus sign, so on "5-1+2" the chosen match is "-1+2"
(starting at index 1) even though the `'-'` matcher has the tier-leftmost
match "5-1" at index 0; substituting "1.0" for "-1+2" textually concatenates
with the leading "5", and the evaluation returns 51.0 instead of 6.0.  This
theorem evaluates the code at the failing input. -/
theorem claim_C2 :
    searchBin '-' "5-1+2".data = some (.binM "5-1".data "5".data "1".data) ∧
    findOp operatorsByPrecedence "5-1+2".data =
      some (.add, .binM "-1+2".data "-1".data "2".data) ∧
    reduceOnce (evaluate 0) "5-1+2".data = .stepped "51.0".data ∧
    evalStr 3 "5-1+2" = some (.val (.fin 51)) := by
  decide

/-- C3 (counterexample): the claim says every pass strictly decreases the
operator count by exactly one, bounding the number of passes by the operator
count.  Reducing "2~3" (operator count 1) rewrites "~3" to "-3.0", so the
operator count stays 1 after the pass; the evaluation needs two reduction
passes — fuel 2 (one pass plus the final parse) is exhausted, fuel 3
succeeds with -1.0. -/
theorem claim_C3_counterexample :
    opCount "2~3" = 1 ∧
    reduceOnce (evaluate 0) "2~3".data = .stepped "2-3.0".data ∧
    opCount "2-3.0" = 1 ∧
    evaluate 2 "2~3".data = none ∧
    evaluate 3 "2~3".data = some (.val (.fin (-1))) := by
  decide

/-- C3 (amended): a reduction pass removes the matched operator occurrence
but need not decrease the operator count by exactly one: the replace-all
substitution can remove several operators in one pass (the first pass on
"1+1+1+1" drops the count from 3 to 1), and reducing `'~'` introduces a
`'-'` that is matched in a later pass, so the count can stay unchanged and
the number of passes can exceed the input's operator count ("2~3" has one
operator yet needs two passes).  On these inputs evaluation still
terminates, with values 4.0 and -1.0. -/
theorem claim_C3 :
    reduceOnce (evaluate 0) "1+1+1+1".data = .stepped "2.0+2.0".data ∧
    opCount "1+1+1+1" = 3 ∧
    opCount "2.0+2.0" = 1 ∧
    evalStr 4 "1+1+1+1" = some (.val (.fin 4)) ∧
    reduceOnce (evaluate 0) "2-3.0".data = .stepped "-1.0".data ∧
    evalStr 3 "2~3" = some (.val (.fin (-1))) := by
  decide

/-- C4: operators are applied in descending precedence order and
parenthesized groups (including nested ones) are reduced first:
`evaluate("2+3*4") = 14.0`, `evaluate("(2+3)*4") = 20.0`, and
`evaluate("((1+2)*(3+4))") = 21.0`. -/
theorem claim_C4 :
    evalStr 4 "2+3*4" = some (.val (.fin 14)) ∧
    evalStr 4 "(2+3)*4" = some (.val (.fin 20)) ∧
    evalStr 8 "((1+2)*(3+4))" = some (.val (.fin 21)) := by
  decide

/-- C5: postfix factorial returns the factorial of a non-negative integral
operand (`evaluate("5!") = 120.0`) and fails for every negative or
non-integral operand: `evaluate("-1!")` and `evaluate("2.5!")` raise, and
`math.factorial` rejects every such float operand.  (The exception is a
`ValueError` in Python — the class the spec's taxonomy calls
ArithmeticError("factorial domain error").) -/
theorem claim_C5 :
    evalStr 2 "5!" = some (.val (.fin 120)) ∧
    evalStr 2 "-1!" = some (.err .factorialNegative) ∧
    evalStr 2 "2.5!" = some (.err .factorialNonIntegral) ∧
    ∀ q : Rat, q < 0 ∨ q.den ≠ 1 → ∀ r, pyFactorial (.fin q) ≠ Except.ok r := by
  refine ⟨by decide, by decide,
    by decide, ?_⟩
  intro q h r
  unfold pyFactorial
  by_cases hd : q.den = 1
  · have hq : q < 0 := h.resolve_right (by simp [hd])
    have hn : q.num < 0 := by
      by_contra hge
      exact absurd (Rat.num_nonneg.mp (not_lt.mp hge)) (not_le.mpr hq)
    simp [hd, hn]
  · simp [hd]

/-- C5 witness: the universal part applied at the concrete operands -1 and
5/2. -/
theorem claim_C5_witness :
    pyFactorial (.fin (-1)) ≠ Except.ok (.i 1) ∧
    pyFactorial (.fin (mkRat 5 2)) ≠ Except.ok (.i 1) :=
  ⟨claim_C5.2.2.2 (-1) (Or.inl (by norm_num)) (.i 1),
   claim_C5.2.2.2 (mkRat 5 2) (Or.inr (by decide)) (.i 1)⟩

/-- C6: division by zero raises rather than returning a value:
`evaluate("1/0")` raises `ZeroDivisionError` (a subclass of Python's
`ArithmeticError`), and `operator.truediv` raises for *every* dividend when
the divisor is 0.0 — no infinite or NaN result is produced. -/
theorem claim_C6 :
    evalStr 1 "1/0" = some (.err .zeroDivisionError) ∧
    ∀ a : PyFloat, pyDiv a (.fin 0) = Except.error .zeroDivisionError := by
  refine ⟨by decide, ?_⟩
  intro a
  unfold pyDiv
  simp

/-- C7: the custom binary operators compute average, maximum, minimum and
fmod-style modulo: `evaluate("4@6") = 5.0`, `evaluate("4$6") = 6.0`,
`evaluate("4&6") = 4.0`, `evaluate("5%2") = 1.0`; on finite operands the
`'@'` operation is (a+b)/2, `'$'` is max, `'&'` is min, and the `'%'`
remainder follows the sign of the dividend. -/
theorem claim_C7 :
    evalStr 2 "4@6" = some (.val (.fin 5)) ∧
    evalStr 2 "4$6" = some (.val (.fin 6)) ∧
    evalStr 2 "4&6" = some (.val (.fin 4)) ∧
    evalStr 2 "5%2" = some (.val (.fin 1)) ∧
    (∀ a b : Rat, pyAvg (.fin a) (.fin b) = Except.ok (.fin ((a + b) / 2))) ∧
    (∀ a b : Rat, pyMax (.fin a) (.fin b) = .fin (max a b)) ∧
    (∀ a b : Rat, pyMin (.fin a) (.fin b) = .fin (min a b)) ∧
    (∀ a b : Rat, b ≠ 0 → (0 ≤ a → 0 ≤ fmodQ a b) ∧ (a ≤ 0 → fmodQ a b ≤ 0)) := by
  refine ⟨by decide, by decide,
    by decide, by decide, ?_, ?_, ?_, fmodQ_sign⟩
  · intro a b
    unfold pyAvg pyAdd pyDiv
    rw [if_neg (by simp : ¬ (PyFloat.fin 2 = PyFloat.fin 0))]
    show Except.ok (PyFloat.fin (ratDiv (ratAdd a b) 2)) =
      Except.ok (PyFloat.fin ((a + b) / 2))
    rw [ratAdd_eq, ratDiv_eq]
  · intro a b
    unfold pyMax pyLt
    by_cases h : a < b
    · simp [h, max_eq_right h.le]
    · simp [h, max_eq_left (not_lt.mp h)]
  · intro a b
    unfold pyMin pyLt
    by_cases h : b < a
    · simp [h, min_eq_right h.le]
    · simp [h, min_eq_left (not_lt.mp h)]

/-- C7 witness: the fmod sign property applied at the concrete operands
(5, 2) and (-5, 2). -/
theorem claim_C7_witness :
    0 ≤ fmodQ 5 2 ∧ fmodQ (-5) 2 ≤ 0 :=
  ⟨(claim_C7.2.2.2.2.2.2.2 5 2 (by norm_num)).1 (by norm_num),
   (claim_C7.2.2.2.2.2.2.2 (-5) 2 (by norm_num)).2 (by norm_num)⟩

/-- C8 (counterexample): the claim says that whenever no operator matches
and the remaining string is not a bare numeric literal (the spec's grammar:
optional minus sign, digits, optional fraction), the evaluation fails with a
parse error.  On "inf" no operator matches and the string is not a literal
of that grammar, yet `float("inf")` succeeds and `evaluate` returns positive
infinity, not an error. -/
theorem claim_C8_counterexample :
    findOp operatorsByPrecedence (stripSpaces "inf".data) = none ∧
    specNumericLiteral "inf" = false ∧
    evalStr 1 "inf" = some (.val .inf) := by
  decide

/-- C8 (amended): whenever no operator matches and the remaining string is
not accepted by Python's `float()` conversion (which admits more than the
spec's literal grammar, e.g. `"inf"` and `"1e5"`), `evaluate` raises the
`ValueError` of `float()` — the spec's ParseError; in particular
`evaluate("2++")` and `evaluate("(2+3")` both fail with it. -/
theorem claim_C8 :
    (∀ (n : Nat) (s : List Char),
      findOp operatorsByPrecedence (stripSpaces s) = none →
      floatParse (stripSpaces s) = .err .floatParseError →
      evaluate (n + 1) s = some (.err .floatParseError)) ∧
    evalStr 2 "2++" = some (.err .floatParseError) ∧
    evalStr 2 "(2+3" = some (.err .floatParseError) := by
  refine ⟨?_, by decide, by decide⟩
  intro n s h1 h2
  simp only [evaluate, reduceOnce, h1, h2]

/-- C8 witness: the universal part applied to the concrete input "2++". -/
theorem claim_C8_witness :
    evaluate 1 "2++".data = some (.err .floatParseError) :=
  claim_C8.1 0 "2++".data (by decide)
    (by decide)

/-- C10: inputs outside the spec's numeric-literal grammar can still
succeed: when no operator matches, the string goes to Python's general
`float()` parsing, so `evaluate("1e5")` returns 100000.0 and
`evaluate("inf")` returns positive infinity instead of failing (while
e.g. "2.5" and "-12.5" do lie inside the spec grammar). -/
theorem claim_C10 :
    specNumericLiteral "1e5" = false ∧
    findOp operatorsByPrecedence (stripSpaces "1e5".data) = none ∧
    evalStr 1 "1e5" = some (.val (.fin 100000)) ∧
    specNumericLiteral "inf" = false ∧
    findOp operatorsByPrecedence (stripSpaces "inf".data) = none ∧
    evalStr 1 "inf" = some (.val .inf) ∧
    specNumericLiteral "2.5" = true ∧
    specNumericLiteral "-12.5" = true := by
  decide
